import Mathlib

/-!
Shallow embedding of the `adp-sitemap-generator` scripts.

The repository holds two near-duplicate sitemap-generation scripts:

* `src/unnamed/part_000` — the variant that publishes `sitemap.xml`: it selects
  the site origin from a `deploy-env` flag, fetches and rewrites the external
  (EDS) sitemap, scans the blob-storage inventory, runs one batch liveness pass
  (`filter200Urls`) over the concatenation of both record streams, and uploads
  the result.
* `src/index.js` — the variant that publishes `test-sitemap.xml`: same fetcher
  and scanner shape, but the liveness probe happens inline during the blob scan
  only, and the external-sitemap records are concatenated in unprobed.

Pure fragments of both scripts are translated below into executable Lean
definitions.  Effectful boundaries are made explicit: the per-URL HEAD probe
becomes an oracle `Probe := String → Option Nat` (`none` models a request that
throws), and code that can throw a JavaScript exception returns `Except`.
JavaScript library primitives used by the scripts (`new URL(...).pathname`,
`String.prototype.replace` with a string pattern, `split`, `startsWith`,
`endsWith`, `slice`, the regex tests `/\d{9,}/` and `/^\/+|\/+$/g`) are
modelled by the explicit character-list functions below, each documented with
the JavaScript behaviour it captures.
-/

namespace AdpSitemap

/-- Boolean prefix test on character lists.  `isPrefixB pat l` models
JavaScript `l.startsWith(pat)` on the list-of-characters view of strings. -/
def isPrefixB : List Char → List Char → Bool
  | [], _ => true
  | _ :: _, [] => false
  | a :: as, b :: bs => a = b && isPrefixB as bs

/-- Boolean suffix test on character lists; models JavaScript `endsWith`. -/
def isSuffixB (pat l : List Char) : Bool := isPrefixB pat.reverse l.reverse

/-- `strStarts s pat` models the JavaScript expression `s.startsWith(pat)`. -/
def strStarts (s pat : String) : Bool := isPrefixB pat.data s.data

/-- `strEnds s pat` models the JavaScript expression `s.endsWith(pat)`. -/
def strEnds (s pat : String) : Bool := isSuffixB pat.data s.data

/-- `sliceDropEnd s n` models the JavaScript expression `s.slice(0, -n)`
for `n > 0`: the string without its last `n` characters (empty when
`n` exceeds the length, as in JavaScript). -/
def sliceDropEnd (s : String) (n : Nat) : String :=
  (s.data.take (s.data.length - n)).asString

/-- `splitChar sep l` models JavaScript `l.split(sep)` for a one-character
separator: `""` splits to `[""]`, separators at the ends produce empty
segments. -/
def splitChar (sep : Char) : List Char → List (List Char)
  | [] => [[]]
  | c :: cs =>
    match splitChar sep cs with
    | [] => if c = sep then [[], []] else [[c]]
    | seg :: rest => if c = sep then [] :: seg :: rest else (c :: seg) :: rest

/-- `replaceFirstAux pat rep l` replaces the leftmost occurrence of `pat`
in `l` by `rep`, leaving `l` unchanged when `pat` does not occur; models
JavaScript `String.prototype.replace` called with a plain string pattern
(which substitutes only the first match). -/
def replaceFirstAux (pat rep : List Char) : List Char → List Char
  | [] => if isPrefixB pat [] then rep else []
  | c :: cs =>
    if isPrefixB pat (c :: cs) then rep ++ (c :: cs).drop pat.length
    else c :: replaceFirstAux pat rep cs

/-- `replaceFirst s pat rep` models the JavaScript expression
`s.replace(pat, rep)` with a string-valued `pat` (first occurrence only). -/
def replaceFirst (s pat rep : String) : String :=
  (replaceFirstAux pat.data rep.data s.data).asString

/-- The components of a parsed absolute URL that the scripts consult. -/
structure URLParts where
  scheme : String
  host : String
  pathname : String
  search : String
deriving Repr, DecidableEq

/-- Splits a character list at its first `:`; `none` when no colon occurs. -/
def splitScheme : List Char → Option (List Char × List Char)
  | [] => none
  | c :: cs =>
    if c = ':' then some ([], cs)
    else
      match splitScheme cs with
      | none => none
      | some (sch, rest) => some (c :: sch, rest)

/-- Models the WHATWG `new URL(s)` constructor as used by the scripts, for
absolute URLs of the shape `scheme://host/path?query#fragment` with an
alphabetic scheme (the scripts only ever construct `http(s)` URLs).
Returns `none` exactly when the constructor would throw a `TypeError`:
no `scheme://` head or an empty host.  A URL with no explicit path has
pathname `/`, as in the platform parser. -/
def parseURL (s : String) : Option URLParts :=
  match splitScheme s.data with
  | none => none
  | some (sch, rest) =>
    if sch.isEmpty then none
    else if !(sch.all Char.isAlpha) then none
    else
      match rest with
      | '/' :: '/' :: r =>
        let host := r.takeWhile (fun c => !(c = '/' || c = '?' || c = '#'))
        let r1 := r.dropWhile (fun c => !(c = '/' || c = '?' || c = '#'))
        if host.isEmpty then none
        else
          match r1 with
          | [] => some ⟨sch.asString, host.asString, "/", ""⟩
          | d :: tail =>
            if d = '/' then
              let pathc := r1.takeWhile (fun c => !(c = '?' || c = '#'))
              let r2 := r1.dropWhile (fun c => !(c = '?' || c = '#'))
              match r2 with
              | '?' :: q =>
                some ⟨sch.asString, host.asString, pathc.asString,
                      ('?' :: q.takeWhile (fun c => !(c = '#'))).asString⟩
              | _ => some ⟨sch.asString, host.asString, pathc.asString, ""⟩
            else
              match d :: tail with
              | '?' :: q =>
                some ⟨sch.asString, host.asString, "/",
                      ('?' :: q.takeWhile (fun c => !(c = '#'))).asString⟩
              | _ => some ⟨sch.asString, host.asString, "/", ""⟩
      | _ => none

/-- The eight excluded-path patterns of `src/unnamed/part_000` lines 77–86;
each regular expression is realised as the anchored prefix/suffix test it
denotes on the URL path. -/
def EXCLUDED_PATTERNS : List (String → Bool) :=
  [ fun p => strStarts p "/test/",
    fun p => strStarts p "/franklin_assets/",
    fun p => strStarts p "/tools/",
    fun p => strEnds p "/nav",
    fun p => strStarts p "/github-actions-test/",
    fun p => strStarts p "/github-actions-test-two/",
    fun p => strEnds p "/config" || strEnds p "/config/",
    fun p => strStarts p "/dev-docs-reference/" ]

/-- `shouldIncludeUrl` (`src/unnamed/part_000` lines 88–90):
`!EXCLUDED_PATTERNS.some(pattern => pattern.test(new URL(url).pathname))`.
When `new URL(url)` would throw (`parseURL` is `none`) the JavaScript
function throws a `TypeError`; that outcome is the `Except.error` case,
carrying the offending string. -/
def shouldIncludeUrl (url : String) : Except String Bool :=
  match parseURL url with
  | none => Except.error url
  | some parts =>
    Except.ok (!(EXCLUDED_PATTERNS.any (fun pattern => pattern parts.pathname)))

/-- A record of the sitemap pipeline.  `loc` and `lastmod` are the fields the
scripts read; `extra` models whatever further child elements the XML parser
attached to an upstream `url` entry (preserved by the object spread in
`fetchEDSSitemap`, stripped by the projections before rendering). -/
structure UrlEntry where
  loc : String
  lastmod : String
  extra : List (String × String)
deriving Repr, DecidableEq

/-- Exception-propagating list filter: models `Array.prototype.filter` when
the callback may throw — elements are tested left to right and the first
thrown error aborts the whole call. -/
def filterE (p : α → Except ε Bool) : List α → Except ε (List α)
  | [] => Except.ok []
  | x :: xs =>
    match p x with
    | Except.error e => Except.error e
    | Except.ok b =>
      match filterE p xs with
      | Except.error e => Except.error e
      | Except.ok rest => Except.ok (if b then x :: rest else rest)

/-- The upstream edge-host origin hard-coded in both scripts. -/
def EDGE_HOST : String := "https://main--adp-devsite--adobedocs.aem.page/"

/-- The record-processing body of `fetchEDSSitemap`
(`src/unnamed/part_000` lines 111–120), applied to the parsed
`urlset.url` array: filter by `shouldIncludeUrl` on each entry's `loc`,
then rewrite the edge-host origin to `siteUrlV` via `String.replace`.
A `TypeError` thrown inside the filter reaches the surrounding
`catch`, which logs and rethrows (lines 122–125), so it surfaces here as
`Except.error` — the fatal-run outcome. -/
def fetchEDSSitemap (siteUrlV : String) (entries : List UrlEntry) :
    Except String (List UrlEntry) :=
  match filterE (fun url => shouldIncludeUrl url.loc) entries with
  | Except.error e => Except.error e
  | Except.ok filteredUrls =>
    Except.ok (filteredUrls.map (fun url =>
      { url with loc := replaceFirst url.loc EDGE_HOST siteUrlV }))

/-- The excluded private/secured sites of `src/unnamed/part_000`
lines 129–146. -/
def EXCLUDED_PRIVATE_SITES : List String :=
  [ "adls-beta",
    "avatar-tts-beta",
    "custom-model-apis",
    "express-add-ons-beta-docs",
    "express-api",
    "firefly-beta",
    "photoshop-api-beta",
    "reframev2",
    "s3dapi",
    "secured",
    "taas-api",
    "ttv-api",
    "ucm-api",
    "video-reframe-api-beta",
    "video-rendering",
    "test-private" ]

/-- The excluded private/secured sites of `src/index.js` lines 221–237
(same list without `test-private`). -/
def EXCLUDED_PRIVATE_SITES_IJ : List String :=
  [ "adls-beta",
    "avatar-tts-beta",
    "custom-model-apis",
    "express-add-ons-beta-docs",
    "express-api",
    "firefly-beta",
    "photoshop-api-beta",
    "reframev2",
    "s3dapi",
    "secured",
    "taas-api",
    "ttv-api",
    "ucm-api",
    "video-reframe-api-beta",
    "video-rendering" ]

/-- Auxiliary: does the route contain, in some single `/`-separated segment,
a match of the regex `\d{9,}`?  Translates
`route.split('/').some(segment => /\d{9,}/.test(segment))`
(`src/unnamed/part_000` lines 163–164; identical in `src/index.js`
lines 255–256).  `digitsFrom n l` models "the next `n` characters of `l`
are digits"; `hasDigitRun n l` models "`l` contains `n` consecutive
digits somewhere", which is what `/\d{n,}/.test` decides. -/
def digitsFrom : Nat → List Char → Bool
  | 0, _ => true
  | _ + 1, [] => false
  | n + 1, c :: cs => c.isDigit && digitsFrom n cs

/-- See `digitsFrom`. -/
def hasDigitRun (n : Nat) : List Char → Bool
  | [] => digitsFrom n []
  | c :: cs => digitsFrom n (c :: cs) || hasDigitRun n cs

/-- The `hasLongDigitSequence` guard of the blob scanners (see
`digitsFrom`): true when some single path segment of `route` matches
`/\d{9,}/`. -/
def hasLongDigitSequence (route : String) : Bool :=
  (splitChar '/' route.data).any (fun segment => hasDigitRun 9 segment)

/-- A storage object descriptor as the scanners consume it:
`blob.name` and the ISO-8601 rendering of `blob.properties.lastModified`
(what `rawDate.toISOString()` returns, e.g. `2023-05-05T10:00:00.000Z`). -/
structure BlobInfo where
  name : String
  lastModifiedISO : String
deriving Repr, DecidableEq

/-- `rawDate.toISOString().split('T')[0]` — the date-only portion of the
ISO-8601 timestamp (`src/unnamed/part_000` line 169). -/
def dateOnly (iso : String) : String :=
  ((splitChar 'T' iso.data).headD []).asString

/-- The per-blob body of `collectBlobPageData`
(`src/unnamed/part_000` lines 152–174): the `continue`-guard chain
(index-suffix, `404/` ending, excluded private site, long digit run)
followed by the record construction.  `none` models `continue`. -/
def processBlob (siteUrlV : String) (b : BlobInfo) : Option UrlEntry :=
  if !(strEnds b.name "index.html") then none
  else
    let route := sliceDropEnd b.name ("index.html".length)
    if strEnds route "404/" then none
    else if EXCLUDED_PRIVATE_SITES.any
        (fun excluded => strStarts route (excluded ++ "/")) then none
    else if hasLongDigitSequence route then none
    else some { loc := siteUrlV ++ route
                lastmod := dateOnly b.lastModifiedISO
                extra := [] }

/-- `collectBlobPageData` of `src/unnamed/part_000` lines 149–177: the
`for await` loop over the flat blob listing, pushing the surviving
records in listing order. -/
def collectBlobPageData (siteUrlV : String) (blobs : List BlobInfo) :
    List UrlEntry :=
  blobs.filterMap (processBlob siteUrlV)

/-- Outcome oracle for the HEAD probe
`fetch(loc, { method: 'HEAD', redirect: 'manual' })`:
`some status` for a response, `none` when the request itself throws. -/
def Probe := String → Option Nat

/-- The statuses dropped by the liveness filters:
`[404, 301, 302]` (`src/unnamed/part_000` line 185). -/
def badStatuses : List Nat := [404, 301, 302]

/-- `filter200Urls` of `src/unnamed/part_000` lines 180–196: probe each
record's `loc`; `continue` on a 404/301/302 response or a thrown fetch
error (logged), otherwise push `{ loc, lastmod }` — note the
destructuring drops every other field. -/
def filter200Urls (probe : Probe) : List UrlEntry → List UrlEntry
  | [] => []
  | e :: rest =>
    match probe e.loc with
    | none => filter200Urls probe rest
    | some status =>
      if badStatuses.contains status then filter200Urls probe rest
      else { loc := e.loc, lastmod := e.lastmod, extra := [] }
        :: filter200Urls probe rest

/-- The projection `({ loc, lastmod }) => ({ loc, lastmod })` both variants
apply before rendering. -/
def projEntry (e : UrlEntry) : UrlEntry :=
  { loc := e.loc, lastmod := e.lastmod, extra := [] }

/-- `allHealthyUrls` as computed by `runSitemapWorkflow`
(`src/unnamed/part_000` lines 226–227): the liveness pass over the
concatenation `[...edsUrls, ...blobUrls]`. -/
def allHealthyUrls (probe : Probe) (edsUrls blobUrls : List UrlEntry) :
    List UrlEntry :=
  filter200Urls probe (edsUrls ++ blobUrls)

/-- `runSitemapWorkflow` of `src/unnamed/part_000` lines 223–229, up to the
list of `url` nodes handed to `generateAndUploadSitemap` (which renders
them verbatim, line 207).  An error from `fetchEDSSitemap` aborts the
run before the scanner and filter stages. -/
def runSitemapWorkflow (siteUrlV : String) (probe : Probe)
    (edsEntries : List UrlEntry) (blobs : List BlobInfo) :
    Except String (List UrlEntry) :=
  match fetchEDSSitemap siteUrlV edsEntries with
  | Except.error e => Except.error e
  | Except.ok edsUrls =>
    Except.ok (allHealthyUrls probe edsUrls (collectBlobPageData siteUrlV blobs))

/-- `collectBlobPageData` of `src/index.js` lines 240–285: the same guard
chain, but with the HEAD probe interleaved per blob — a 404/301/302
response or a thrown fetch error `continue`s past the record. -/
def collectBlobPageDataIJ (siteUrlV : String) (probe : Probe) :
    List BlobInfo → List UrlEntry
  | [] => []
  | b :: bs =>
    let rest := collectBlobPageDataIJ siteUrlV probe bs
    if !(strEnds b.name "index.html") then rest
    else
      let route := sliceDropEnd b.name ("index.html".length)
      if strEnds route "404/" then rest
      else if EXCLUDED_PRIVATE_SITES_IJ.any
          (fun excluded => strStarts route (excluded ++ "/")) then rest
      else if hasLongDigitSequence route then rest
      else
        match probe (siteUrlV ++ route) with
        | none => rest
        | some status =>
          if badStatuses.contains status then rest
          else { loc := siteUrlV ++ route
                 lastmod := dateOnly b.lastModifiedISO
                 extra := [] } :: rest

/-- `combinedUrls` of `src/index.js` lines 294–297:
`[...edsUrls, ...blobUrls].map(({ loc, lastmod }) => ({ loc, lastmod }))`.
Note the EDS records arrive here without ever being probed. -/
def combinedUrlsIJ (edsUrls blobUrls : List UrlEntry) : List UrlEntry :=
  (edsUrls ++ blobUrls).map projEntry

/-- `runSitemapWorkflow` of `src/index.js` lines 320–324, up to the `url`
node list rendered by its `generateAndUploadSitemap`: the EDS records
are passed straight to the renderer; only the blob records go through
the (inline) liveness probe. -/
def runSitemapWorkflowIJ (siteUrlV : String) (probe : Probe)
    (edsUrls : List UrlEntry) (blobs : List BlobInfo) : List UrlEntry :=
  combinedUrlsIJ edsUrls (collectBlobPageDataIJ siteUrlV probe blobs)

/-- `if (target.startsWith('/')) target = target.slice(1);`
(`src/unnamed/part_000` line 34; identical in `src/index.js` line 122). -/
def mainTargetAdjust (t : String) : String :=
  if strStarts t "/" then (t.data.drop 1).asString else t

/-- `t.replace(/^\/+|\/+$/g, '')`: the global regex removes the run of
slashes at the very start and the run of slashes at the very end of the
string (interior slashes match neither anchored alternative). -/
def stripSlashesAll (s : String) : String :=
  (((s.data.dropWhile (fun c => c = '/')).reverse.dropWhile
      (fun c => c = '/')).reverse).asString

/-- `normalizedTarget` (`src/unnamed/part_000` line 213):
`target === '/' ? '' : target.replace(/^\/+|\/+$/g, '')`. -/
def normalizedTarget (t : String) : String :=
  if t = "/" then "" else stripSlashesAll t

/-- The destination blob path of `src/unnamed/part_000` lines 34 and
213–214, as a function of the configured `target` input:
`normalizedTarget ? normalizedTarget + '/sitemap.xml' : 'sitemap.xml'`
after the one-leading-slash adjustment in `main`. -/
def blobNameOf (t0 : String) : String :=
  let t := mainTargetAdjust t0
  let n := normalizedTarget t
  if n = "" then "sitemap.xml" else n ++ "/sitemap.xml"

/-- The destination blob path of `src/index.js` lines 122 and 309–310 —
identical normalization, but the file name is `test-sitemap.xml`. -/
def blobNameIJ (t0 : String) : String :=
  let t := mainTargetAdjust t0
  let n := normalizedTarget t
  if n = "" then "test-sitemap.xml" else n ++ "/test-sitemap.xml"

/-- The deploy environments accepted by `main`
(`src/unnamed/part_000` line 29). -/
def validDeployEnvs : List String := ["dev", "prod"]

/-- `siteUrl` (`src/unnamed/part_000` lines 92–94): the deploy flag selects
between the stage and production origins. -/
def siteUrl (deployEnv : String) : String :=
  if deployEnv = "dev" then "https://developer-stage.adobe.com/"
  else "https://developer.adobe.com/"

/-- `main`'s startup sequence around the deploy-env check
(`src/unnamed/part_000` lines 26–42): the check at lines 29–31 throws
before the blob-service clients — the first operations that touch the
network (lines 41–42) — are constructed.  The first component records
the network-touching operations performed; the second is the outcome,
carrying the selected site origin on success. -/
def mainDeploySequence (deployEnv : String) :
    List String × Except String String :=
  if validDeployEnvs.contains deployEnv then
    (["BlobServiceClient.fromConnectionString(read)",
      "BlobServiceClient.fromConnectionString(publish)"],
     Except.ok (siteUrl deployEnv))
  else
    ([], Except.error ("Unknown deploy env: " ++ deployEnv))

/-- Boolean success test for `Except`. -/
def exceptIsOk : Except ε α → Bool
  | Except.ok _ => true
  | Except.error _ => false

/-- The per-record survival test of `filter200Urls`, as a function of the
probed `loc`: the probe responded and the status is none of 404, 301,
302. -/
def aliveB (probe : Probe) (loc : String) : Bool :=
  match probe loc with
  | none => false
  | some status => !(badStatuses.contains status)

/-- The Boolean a throwing predicate computed when it did not throw
(`false` on the error side). -/
def exceptBool : Except ε Bool → Bool
  | Except.ok b => b
  | Except.error _ => false

/-- The per-record filter predicate of `fetchEDSSitemap`, read off from a
non-throwing `shouldIncludeUrl` run. -/
def includeB (url : String) : Bool :=
  exceptBool (shouldIncludeUrl url)

/-- The rewrite `fetchEDSSitemap` applies to each surviving entry
(`src/unnamed/part_000` lines 113–118). -/
def rewriteEntry (siteUrlV : String) (url : UrlEntry) : UrlEntry :=
  { url with loc := replaceFirst url.loc EDGE_HOST siteUrlV }

theorem isPrefixB_append_self (xs ys : List Char) :
    isPrefixB xs (xs ++ ys) = true := by
  induction xs with
  | nil => rfl
  | cons a as ih => simp [isPrefixB, ih]

theorem replaceFirstAux_append (pat rep rest : List Char) :
    replaceFirstAux pat rep (pat ++ rest) = rep ++ rest := by
  cases hp : pat with
  | nil =>
    cases rest with
    | nil => simp [replaceFirstAux, isPrefixB]
    | cons c cs => simp [replaceFirstAux, isPrefixB]
  | cons p ps =>
    show replaceFirstAux (p :: ps) rep ((p :: ps) ++ rest) = rep ++ rest
    rw [List.cons_append]
    rw [replaceFirstAux]
    rw [← List.cons_append, isPrefixB_append_self]
    simp

theorem replaceFirst_of_prefixApp (pat rep rest : String) :
    replaceFirst (pat ++ rest) pat rep = rep ++ rest := by
  apply String.ext
  show (replaceFirstAux pat.data rep.data (pat ++ rest).data).asString.data
      = (rep ++ rest).data
  rw [String.data_append, String.data_append, replaceFirstAux_append]
  rfl

theorem filterE_ok {p : α → Except ε Bool} {xs : List α} {ys : List α}
    (h : filterE p xs = Except.ok ys) :
    ys = xs.filter (fun x => exceptBool (p x)) := by
  induction xs generalizing ys with
  | nil => simp [filterE] at h; simp [h]
  | cons x xs ih =>
    cases hp : p x with
    | error e => simp [filterE, hp] at h
    | ok b =>
      cases hr : filterE p xs with
      | error e => simp [filterE, hp, hr] at h
      | ok zs =>
        simp only [filterE, hp, hr, Except.ok.injEq] at h
        rw [← h, ih hr]
        cases b <;> simp [List.filter, hp, exceptBool]

theorem exceptIsOk_filterE (p : α → Except ε Bool) (xs : List α) :
    exceptIsOk (filterE p xs) = xs.all (fun x => exceptIsOk (p x)) := by
  induction xs with
  | nil => rfl
  | cons x xs ih =>
    cases hp : p x with
    | error e => simp [filterE, hp, exceptIsOk]
    | ok b =>
      cases hr : filterE p xs with
      | error e =>
        have hall : xs.all (fun x => exceptIsOk (p x)) = false := by
          rw [← ih, hr]; rfl
        simp only [filterE, hp, hr, List.all_cons, hall, Bool.and_false]
        rfl
      | ok zs =>
        have hall : xs.all (fun x => exceptIsOk (p x)) = true := by
          rw [← ih, hr]; rfl
        simp only [filterE, hp, hr, List.all_cons, hall, Bool.and_true]
        rfl

theorem shouldIncludeUrl_isOk (url : String) :
    exceptIsOk (shouldIncludeUrl url) = (parseURL url).isSome := by
  cases h : parseURL url <;> simp [shouldIncludeUrl, h, exceptIsOk]

theorem fetchEDSSitemap_ok {siteUrlV : String} {entries out : List UrlEntry}
    (h : fetchEDSSitemap siteUrlV entries = Except.ok out) :
    out = (entries.filter (fun url => includeB url.loc)).map
      (rewriteEntry siteUrlV) := by
  cases hf : filterE (fun url => shouldIncludeUrl url.loc) entries with
  | error e => simp [fetchEDSSitemap, hf] at h
  | ok l =>
    simp only [fetchEDSSitemap, hf, Except.ok.injEq] at h
    rw [← h, filterE_ok hf]
    rfl

theorem fetchEDSSitemap_isOk (siteUrlV : String) (entries : List UrlEntry) :
    exceptIsOk (fetchEDSSitemap siteUrlV entries)
      = entries.all (fun url => (parseURL url.loc).isSome) := by
  have hbind : exceptIsOk (fetchEDSSitemap siteUrlV entries)
      = exceptIsOk (filterE (fun url => shouldIncludeUrl url.loc) entries) := by
    cases hf : filterE (fun url => shouldIncludeUrl url.loc) entries <;>
      simp [fetchEDSSitemap, hf, exceptIsOk]
  rw [hbind, exceptIsOk_filterE]
  simp [shouldIncludeUrl_isOk]

theorem filter200_eq (probe : Probe) (l : List UrlEntry) :
    filter200Urls probe l
      = (l.filter (fun e => aliveB probe e.loc)).map projEntry := by
  induction l with
  | nil => rfl
  | cons e rest ih =>
    cases hp : probe e.loc with
    | none =>
      have hfa : aliveB probe e.loc = false := by
        simp only [aliveB, hp]
      simp [filter200Urls, hp, List.filter_cons, hfa, ih]
    | some status =>
      cases hc : badStatuses.contains status with
      | true =>
        have hfa : aliveB probe e.loc = false := by
          simp only [aliveB, hp, hc, Bool.not_true]
        simp [filter200Urls, hp, hc, List.filter_cons, hfa, ih]
        simpa using hc
      | false =>
        have hfa : aliveB probe e.loc = true := by
          simp only [aliveB, hp, hc, Bool.not_false]
        simp [filter200Urls, hp, hc, List.filter_cons, hfa, ih, projEntry]
        simpa using hc

theorem mem_filter200 {probe : Probe} {l : List UrlEntry} {r : UrlEntry}
    (hr : r ∈ l) :
    projEntry r ∈ filter200Urls probe l ↔ aliveB probe r.loc = true := by
  rw [filter200_eq]
  constructor
  · intro hmem
    rcases List.mem_map.mp hmem with ⟨a, ha, hproj⟩
    have hloc := congrArg UrlEntry.loc hproj
    simp only [projEntry] at hloc
    have := (List.mem_filter.mp ha).2
    rwa [hloc] at this
  · intro halive
    exact List.mem_map_of_mem _ (List.mem_filter.mpr ⟨hr, halive⟩)

theorem digitsFrom_iff (n : Nat) (l : List Char) :
    digitsFrom n l = true ↔
      ∃ mid post, l = mid ++ post ∧ mid.length = n ∧ ∀ c ∈ mid, c.isDigit = true := by
  induction n generalizing l with
  | zero =>
    simp only [digitsFrom, true_iff]
    exact ⟨[], l, rfl, rfl, by simp⟩
  | succ n ih =>
    cases l with
    | nil =>
      simp only [digitsFrom]
      constructor
      · intro h; cases h
      · rintro ⟨mid, post, heq, hlen, -⟩
        have hm : mid = [] := (List.append_eq_nil.mp heq.symm).1
        rw [hm] at hlen
        exact absurd hlen.symm (Nat.succ_ne_zero n)
    | cons c cs =>
      simp only [digitsFrom, Bool.and_eq_true]
      constructor
      · rintro ⟨hd, hrest⟩
        rcases (ih cs).mp hrest with ⟨mid, post, heq, hlen, hdig⟩
        refine ⟨c :: mid, post, by rw [List.cons_append, ← heq], by simp [hlen], ?_⟩
        intro d hdmem
        rcases List.mem_cons.mp hdmem with h | h
        · rw [h]; exact hd
        · exact hdig d h
      · rintro ⟨mid, post, heq, hlen, hdig⟩
        cases mid with
        | nil => simp at hlen
        | cons m ms =>
          rw [List.cons_append] at heq
          injection heq with h1 h2
          refine ⟨?_, ?_⟩
          · rw [h1]; exact hdig m (by simp)
          · exact (ih cs).mpr ⟨ms, post, h2, by simpa using hlen,
              fun d hd => hdig d (by simp [hd])⟩

theorem hasDigitRun_iff (n : Nat) (l : List Char) :
    hasDigitRun n l = true ↔
      ∃ pre mid post, l = pre ++ (mid ++ post) ∧ mid.length = n
        ∧ ∀ c ∈ mid, c.isDigit = true := by
  induction l with
  | nil =>
    rw [show hasDigitRun n [] = digitsFrom n [] from rfl, digitsFrom_iff]
    constructor
    · rintro ⟨mid, post, heq, hlen, hdig⟩
      exact ⟨[], mid, post, by simpa using heq, hlen, hdig⟩
    · rintro ⟨pre, mid, post, heq, hlen, hdig⟩
      have h2 : mid ++ post = [] := (List.append_eq_nil.mp heq.symm).2
      exact ⟨mid, post, h2.symm, hlen, hdig⟩
  | cons c cs ih =>
    rw [show hasDigitRun n (c :: cs)
          = (digitsFrom n (c :: cs) || hasDigitRun n cs) from rfl,
        Bool.or_eq_true, digitsFrom_iff, ih]
    constructor
    · rintro (⟨mid, post, heq, hlen, hdig⟩ | ⟨pre, mid, post, heq, hlen, hdig⟩)
      · exact ⟨[], mid, post, by simpa using heq, hlen, hdig⟩
      · exact ⟨c :: pre, mid, post, by rw [List.cons_append, ← heq], hlen, hdig⟩
    · rintro ⟨pre, mid, post, heq, hlen, hdig⟩
      cases pre with
      | nil => exact Or.inl ⟨mid, post, by simpa using heq, hlen, hdig⟩
      | cons p ps =>
        rw [List.cons_append] at heq
        injection heq with h1 h2
        exact Or.inr ⟨ps, mid, post, h2, hlen, hdig⟩

theorem hasDigitRun_ge_iff (n : Nat) (l : List Char) :
    hasDigitRun n l = true ↔
      ∃ pre mid post, l = pre ++ (mid ++ post) ∧ n ≤ mid.length
        ∧ ∀ c ∈ mid, c.isDigit = true := by
  rw [hasDigitRun_iff]
  constructor
  · rintro ⟨pre, mid, post, heq, hlen, hdig⟩
    exact ⟨pre, mid, post, heq, le_of_eq hlen.symm, hdig⟩
  · rintro ⟨pre, mid, post, heq, hlen, hdig⟩
    refine ⟨pre, mid.take n, mid.drop n ++ post, ?_, ?_, ?_⟩
    · rw [heq, ← List.append_assoc (mid.take n), List.take_append_drop]
    · simp only [List.length_take]
      omega
    · intro d hd
      exact hdig d (List.take_subset n mid hd)

theorem stripSlashesAll_adjust (t : String) :
    stripSlashesAll (mainTargetAdjust t) = stripSlashesAll t := by
  have hd : "/".data = ['/'] := rfl
  cases ht : t.data with
  | nil =>
    have hs : strStarts t "/" = false := by
      simp [strStarts, ht, hd, isPrefixB]
    simp [mainTargetAdjust, hs]
  | cons c cs =>
    by_cases hc : c = '/'
    · have hs : strStarts t "/" = true := by
        simp [strStarts, ht, hd, isPrefixB, hc]
      have h1 : mainTargetAdjust t = cs.asString := by
        simp [mainTargetAdjust, hs, ht]
      rw [h1]
      simp only [stripSlashesAll, ht]
      have hdata : (cs.asString).data = cs := rfl
      rw [hdata, hc, List.dropWhile_cons]
      simp
    · have hc2 : ¬(('/' : Char) = c) := fun h => hc h.symm
      have hs : strStarts t "/" = false := by
        simp [strStarts, ht, hd, isPrefixB, hc2]
      simp [mainTargetAdjust, hs]

theorem normalizedTarget_eq_strip (t : String) :
    normalizedTarget t = stripSlashesAll t := by
  unfold normalizedTarget
  by_cases h : t = "/"
  · rw [if_pos h, h]
    decide
  · rw [if_neg h]

theorem contains_validDeployEnvs {env : String}
    (h1 : env ≠ "dev") (h2 : env ≠ "prod") :
    validDeployEnvs.contains env = false := by
  simp [validDeployEnvs, h1, h2]

/-- C1 (amended to the `src/unnamed/part_000` workflow, the variant that
publishes `sitemap.xml`): for every record in the concatenation of the
external-sitemap records and the storage-inventory records, presence in
the published url list is decided by the HEAD probe of its loc — the
record is present iff the probe returned some status other than 404, 301
and 302, and absent on those statuses or when the probe request errors.
(The `src/index.js` variant violates the original claim: see the
counterexample theorem.) -/
theorem liveness_filter_membership
    (siteUrlV : String) (probe : Probe) (edsEntries : List UrlEntry)
    (blobs : List BlobInfo) (out edsUrls : List UrlEntry)
    (hrun : runSitemapWorkflow siteUrlV probe edsEntries blobs = Except.ok out)
    (hfetch : fetchEDSSitemap siteUrlV edsEntries = Except.ok edsUrls)
    (r : UrlEntry)
    (hr : r ∈ edsUrls ++ collectBlobPageData siteUrlV blobs) :
    projEntry r ∈ out ↔
      ∃ s, probe r.loc = some s ∧ badStatuses.contains s = false := by
  have hout : out
      = allHealthyUrls probe edsUrls (collectBlobPageData siteUrlV blobs) := by
    simp only [runSitemapWorkflow, hfetch, Except.ok.injEq] at hrun
    exact hrun.symm
  rw [hout]
  rw [show allHealthyUrls probe edsUrls (collectBlobPageData siteUrlV blobs)
        = filter200Urls probe (edsUrls ++ collectBlobPageData siteUrlV blobs)
      from rfl]
  rw [mem_filter200 hr]
  cases hp : probe r.loc with
  | none => simp [aliveB, hp]
  | some s =>
    cases hc : badStatuses.contains s <;> simp [aliveB, hp, hc]

/-- C1 witness: a record whose probe returns 200 is present in the
published list of the `part_000` workflow. -/
theorem liveness_filter_membership_witness :
    (⟨"https://developer.adobe.com/" ++ "docs/bar", "2024-01-01", []⟩ : UrlEntry)
      ∈ [(⟨"https://developer.adobe.com/" ++ "docs/bar", "2024-01-01", []⟩ :
          UrlEntry)] := by
  have h := liveness_filter_membership "https://developer.adobe.com/"
    (fun _ => some 200)
    [⟨EDGE_HOST ++ "docs/bar", "2024-01-01", []⟩] []
    [⟨"https://developer.adobe.com/" ++ "docs/bar", "2024-01-01", []⟩]
    [⟨"https://developer.adobe.com/" ++ "docs/bar", "2024-01-01", []⟩]
    rfl rfl
    ⟨"https://developer.adobe.com/" ++ "docs/bar", "2024-01-01", []⟩
    (by simp)
  exact h.mpr ⟨200, rfl, rfl⟩

/-- C1 counterexample: in the `src/index.js` workflow (cited by the claim),
an external-sitemap record is published even when every probe of its loc
reports 301 — no liveness probe is issued for external records, so "absent
iff the probe returns 404/301/302" fails there. -/
theorem indexjs_eds_published_unprobed :
    runSitemapWorkflowIJ "https://developer.adobe.com/" (fun _ => some 301)
        [⟨"https://developer.adobe.com/docs/bar", "2024-01-01", []⟩] []
        = [⟨"https://developer.adobe.com/docs/bar", "2024-01-01", []⟩]
      ∧ badStatuses.contains 301 = true :=
  ⟨rfl, rfl⟩

/-- C2 (amended): the exclusion-matching step does abort the run on a
malformed record — `fetchEDSSitemap` succeeds exactly when every entry's
loc parses as a URL; one unparseable loc makes the whole call (and hence
the run, since the catch rethrows) fail. -/
theorem fetch_ok_iff_all_parseable (siteUrlV : String)
    (entries : List UrlEntry) :
    exceptIsOk (fetchEDSSitemap siteUrlV entries)
      = entries.all (fun url => (parseURL url.loc).isSome) :=
  fetchEDSSitemap_isOk siteUrlV entries

/-- C2 counterexample: a single malformed loc in the upstream list makes
`fetchEDSSitemap` return the thrown error — the well-formed record is
discarded with it and the run aborts, instead of the malformed record
being dropped and the run continuing. -/
theorem malformed_loc_aborts_run :
    fetchEDSSitemap "https://developer.adobe.com/"
        [⟨EDGE_HOST ++ "docs/ok", "2024-01-01", []⟩,
         ⟨"not a url", "2024-01-01", []⟩]
      = Except.error "not a url" := rfl

/-- C3: the published url list is the surviving external-source records in
producer order followed by the surviving storage-inventory records in
producer order, with no deduplication by loc (per-record multiplicities
add); the `src/index.js` renderer likewise concatenates without
deduplicating. -/
theorem merged_output_order_no_dedup (probe : Probe)
    (edsUrls blobUrls : List UrlEntry) :
    allHealthyUrls probe edsUrls blobUrls
        = (edsUrls.filter (fun e => aliveB probe e.loc)).map projEntry
          ++ (blobUrls.filter (fun e => aliveB probe e.loc)).map projEntry
      ∧ (∀ r : UrlEntry,
          (allHealthyUrls probe edsUrls blobUrls).count r
            = (filter200Urls probe edsUrls).count r
              + (filter200Urls probe blobUrls).count r)
      ∧ combinedUrlsIJ edsUrls blobUrls
          = edsUrls.map projEntry ++ blobUrls.map projEntry := by
  refine ⟨?_, ?_, ?_⟩
  · rw [show allHealthyUrls probe edsUrls blobUrls
          = filter200Urls probe (edsUrls ++ blobUrls) from rfl,
        filter200_eq, List.filter_append, List.map_append]
  · intro r
    rw [show allHealthyUrls probe edsUrls blobUrls
          = filter200Urls probe (edsUrls ++ blobUrls) from rfl,
        filter200_eq, filter200_eq, filter200_eq, List.filter_append,
        List.map_append, List.count_append]
  · rw [show combinedUrlsIJ edsUrls blobUrls
          = (edsUrls ++ blobUrls).map projEntry from rfl, List.map_append]

/-- C4: the scanner's digit guard fires on a route exactly when some single
`/`-separated segment contains a run of 9 or more consecutive digits; a
longest run of 8 does not fire, and a 9-digit run split across two
segments by a `/` does not fire. -/
theorem digit_run_guard_per_segment :
    (∀ route : String,
      hasLongDigitSequence route = true ↔
        ∃ seg ∈ splitChar '/' route.data,
          ∃ pre mid post, seg = pre ++ (mid ++ post) ∧ 9 ≤ mid.length
            ∧ ∀ c ∈ mid, c.isDigit = true)
    ∧ hasLongDigitSequence "docs/12345678/a/" = false
    ∧ hasLongDigitSequence "a/12345/6789/b/" = false := by
  refine ⟨?_, by decide, by decide⟩
  intro route
  simp only [hasLongDigitSequence, List.any_eq_true]
  constructor
  · rintro ⟨seg, hseg, hrun⟩
    exact ⟨seg, hseg, (hasDigitRun_ge_iff 9 seg).mp hrun⟩
  · rintro ⟨seg, hseg, hex⟩
    exact ⟨seg, hseg, (hasDigitRun_ge_iff 9 seg).mpr hex⟩

/-- C5: the fetcher's output is exactly the exclusion-surviving entries
mapped through the origin rewrite; each surviving entry whose loc starts
with the edge-host origin is emitted with that origin replaced by the
site origin, the rest of the loc preserved verbatim and lastmod (and
every other field) unchanged. -/
theorem eds_rewrite_origin (siteUrlV : String) (entries out : List UrlEntry)
    (h : fetchEDSSitemap siteUrlV entries = Except.ok out) :
    out = (entries.filter (fun url => includeB url.loc)).map
        (rewriteEntry siteUrlV)
      ∧ ∀ url ∈ entries, includeB url.loc = true →
          ∀ rest : String, url.loc = EDGE_HOST ++ rest →
            (⟨siteUrlV ++ rest, url.lastmod, url.extra⟩ : UrlEntry) ∈ out := by
  have hout := fetchEDSSitemap_ok h
  refine ⟨hout, ?_⟩
  intro url hmem hinc rest hloc
  rw [hout]
  have hrw : rewriteEntry siteUrlV url
      = ⟨siteUrlV ++ rest, url.lastmod, url.extra⟩ := by
    unfold rewriteEntry
    rw [hloc, replaceFirst_of_prefixApp]
  rw [← hrw]
  exact List.mem_map_of_mem _ (List.mem_filter.mpr ⟨hmem, hinc⟩)

/-- C5 witness: the end-to-end scenario — a `/test/` entry is dropped and
the surviving `docs/bar` entry is emitted under the site origin with its
lastmod intact. -/
theorem eds_rewrite_origin_witness :
    (⟨"https://site.example/" ++ "docs/bar", "2024-01-01", []⟩ : UrlEntry)
      ∈ [(⟨"https://site.example/" ++ "docs/bar", "2024-01-01", []⟩ :
          UrlEntry)] := by
  have h := eds_rewrite_origin "https://site.example/"
    [⟨EDGE_HOST ++ "test/foo", "2024-01-01", []⟩,
     ⟨EDGE_HOST ++ "docs/bar", "2024-01-01", []⟩]
    [⟨"https://site.example/" ++ "docs/bar", "2024-01-01", []⟩]
    rfl
  exact h.2 ⟨EDGE_HOST ++ "docs/bar", "2024-01-01", []⟩ (by simp) rfl
    "docs/bar" rfl

/-- C6: `shouldIncludeUrl` is a pure function of the URL's path component —
two parseable URLs with equal pathnames get the same verdict regardless
of host or query — and for a parseable URL it returns false exactly when
some configured exclusion pattern matches the pathname. -/
theorem shouldInclude_path_pure :
    (∀ u1 u2 p1 p2, parseURL u1 = some p1 → parseURL u2 = some p2 →
      p1.pathname = p2.pathname → shouldIncludeUrl u1 = shouldIncludeUrl u2)
    ∧ (∀ u p, parseURL u = some p →
        (shouldIncludeUrl u = Except.ok false ↔
          EXCLUDED_PATTERNS.any (fun pattern => pattern p.pathname) = true)) := by
  constructor
  · intro u1 u2 p1 p2 h1 h2 hpath
    simp [shouldIncludeUrl, h1, h2, hpath]
  · intro u p h
    simp [shouldIncludeUrl, h]

/-- C6 witness: two URLs with different hosts and query strings but the
same path `/tools/x` receive the same (excluding) verdict. -/
theorem shouldInclude_path_pure_witness :
    shouldIncludeUrl "https://a.example/tools/x?q=1"
        = shouldIncludeUrl "http://b.example/tools/x"
      ∧ shouldIncludeUrl "https://a.example/tools/x?q=1" = Except.ok false := by
  constructor
  · exact shouldInclude_path_pure.1 "https://a.example/tools/x?q=1"
      "http://b.example/tools/x"
      ⟨"https", "a.example", "/tools/x", "?q=1"⟩
      ⟨"http", "b.example", "/tools/x", ""⟩ rfl rfl rfl
  · exact (shouldInclude_path_pure.2 "https://a.example/tools/x?q=1"
      ⟨"https", "a.example", "/tools/x", "?q=1"⟩ rfl).mpr rfl

/-- C7: a descriptor whose name does not end in `index.html` emits no
record; a descriptor passing every guard emits
`{ loc: siteUrl ++ route, lastmod: date-only ISO }` where route is the
name minus the suffix; and every emitted record arises from some listed
descriptor. -/
theorem scanner_emission_shape (siteUrlV : String) :
    (∀ b : BlobInfo, strEnds b.name "index.html" = false →
        processBlob siteUrlV b = none)
    ∧ (∀ b : BlobInfo, strEnds b.name "index.html" = true →
        strEnds (sliceDropEnd b.name ("index.html".length)) "404/" = false →
        EXCLUDED_PRIVATE_SITES.any (fun excluded =>
            strStarts (sliceDropEnd b.name ("index.html".length))
              (excluded ++ "/")) = false →
        hasLongDigitSequence (sliceDropEnd b.name ("index.html".length))
            = false →
        processBlob siteUrlV b
          = some ⟨siteUrlV ++ sliceDropEnd b.name ("index.html".length),
                  dateOnly b.lastModifiedISO, []⟩)
    ∧ ∀ (blobs : List BlobInfo) (e : UrlEntry),
        e ∈ collectBlobPageData siteUrlV blobs →
        ∃ b ∈ blobs, processBlob siteUrlV b = some e := by
  refine ⟨?_, ?_, ?_⟩
  · intro b h
    simp [processBlob, h]
  · intro b h1 h2 h3 h4
    simp [processBlob, h1, h2, h3, h4]
  · intro blobs e he
    rcases List.mem_filterMap.mp he with ⟨b, hb, hpb⟩
    exact ⟨b, hb, hpb⟩

/-- C7 witness: end-to-end scenario 2 — `docs/a/index.html` last modified
`2023-05-05T10:00:00.000Z` emits `{ loc: origin ++ docs/a/, lastmod:
2023-05-05 }`. -/
theorem scanner_emission_shape_witness :
    processBlob "https://developer.adobe.com/"
        ⟨"docs/a/index.html", "2023-05-05T10:00:00.000Z"⟩
      = some ⟨"https://developer.adobe.com/" ++ "docs/a/", "2023-05-05", []⟩ := by
  have h := (scanner_emission_shape "https://developer.adobe.com/").2.1
    ⟨"docs/a/index.html", "2023-05-05T10:00:00.000Z"⟩ rfl rfl rfl rfl
  exact h.trans (by decide)

/-- C8 (amended to `src/unnamed/part_000`, which writes `sitemap.xml`): the
destination object path is the configured target prefix with leading and
trailing slashes stripped (`/` becoming empty) followed by
`sitemap.xml`, at the root when the stripped prefix is empty.  (The
`src/index.js` variant instead writes `test-sitemap.xml`: see the
counterexample theorem.) -/
theorem blob_name_target_strip :
    (∀ t0 : String, blobNameOf t0
        = if stripSlashesAll t0 = "" then "sitemap.xml"
          else stripSlashesAll t0 ++ "/sitemap.xml")
    ∧ blobNameOf "/blog/" = "blog/sitemap.xml"
    ∧ blobNameOf "/" = "sitemap.xml"
    ∧ blobNameOf "" = "sitemap.xml" := by
  refine ⟨?_, by decide, by decide, by decide⟩
  intro t0
  simp only [blobNameOf]
  rw [normalizedTarget_eq_strip, stripSlashesAll_adjust]

/-- C8 counterexample: `src/index.js` (cited by the claim) normalizes the
prefix the same way but appends `test-sitemap.xml`, so for target
`/blog/` the destination is not `blog/sitemap.xml`. -/
theorem indexjs_blob_name_not_sitemap :
    blobNameIJ "/blog/" = "blog/test-sitemap.xml"
      ∧ blobNameIJ "/blog/" ≠ "blog/sitemap.xml" :=
  ⟨by decide, by decide⟩

/-- C9: an unrecognized deploy flag makes `main` fail with the
configuration error before any network-touching operation is performed,
and `dev` / `prod` deterministically select the stage / production site
origins. -/
theorem deploy_env_selection :
    (∀ env : String, env ≠ "dev" → env ≠ "prod" →
        mainDeploySequence env
          = ([], Except.error ("Unknown deploy env: " ++ env)))
    ∧ (mainDeploySequence "dev").2
        = Except.ok "https://developer-stage.adobe.com/"
    ∧ (mainDeploySequence "prod").2
        = Except.ok "https://developer.adobe.com/" := by
  refine ⟨?_, rfl, rfl⟩
  intro env h1 h2
  have hc := contains_validDeployEnvs h1 h2
  simp [mainDeploySequence, hc, validDeployEnvs, h1, h2]

/-- C9 witness: the flag `staging` fails with the configuration error and
an empty network-operation trace. -/
theorem deploy_env_selection_witness :
    mainDeploySequence "staging"
      = ([], Except.error ("Unknown deploy env: " ++ "staging")) :=
  deploy_env_selection.1 "staging" (by decide) (by decide)

/-- C10: every url entry reaching the XML renderer carries only loc and
lastmod — the `extra` upstream fields are stripped by the projection in
`filter200Urls` (part_000) and by the `combinedUrls` map (index.js). -/
theorem rendered_entries_only_loc_lastmod (probe : Probe)
    (edsUrls blobUrls : List UrlEntry) :
    (∀ e ∈ allHealthyUrls probe edsUrls blobUrls, e.extra = [])
    ∧ (∀ e ∈ combinedUrlsIJ edsUrls blobUrls, e.extra = []) := by
  constructor
  · intro e he
    rw [show allHealthyUrls probe edsUrls blobUrls
          = filter200Urls probe (edsUrls ++ blobUrls) from rfl,
        filter200_eq] at he
    rcases List.mem_map.mp he with ⟨a, -, hproj⟩
    rw [← hproj]
    rfl
  · intro e he
    rcases List.mem_map.mp he with ⟨a, -, hproj⟩
    rw [← hproj]
    rfl

/-- C10 witness: an upstream entry carrying a `priority` field survives the
liveness pass with the field stripped. -/
theorem rendered_entries_only_loc_lastmod_witness :
    (⟨"https://developer.adobe.com/a/", "2024-01-01", []⟩ : UrlEntry).extra
      = [] :=
  (rendered_entries_only_loc_lastmod (fun _ => some 200)
    [⟨"https://developer.adobe.com/a/", "2024-01-01", [("priority", "0.5")]⟩]
    []).1
    ⟨"https://developer.adobe.com/a/", "2024-01-01", []⟩ (by decide)

end AdpSitemap
